import Mathlib

/-!
Verification of the notification fan-out pipeline, inbox lifecycle and
ephemeral-media listing logic of `src/app.py` (Smart Post classroom demo).

The embedding is shallow: Firestore documents are ordered field maps over a
`Value` type, collections are association lists keyed by document id, and the
wall clock is an integer timeline threaded explicitly.  Each route handler or
service method of the source file is translated into an executable Lean
function with the same structure; server-assigned timestamps
(`firestore.SERVER_TIMESTAMP`) are resolved to the write-time clock value.
-/

namespace SmartPost

/-- Firestore field values as used by the notification and media subsystems.
`vtime` models a Python `datetime` (timestamps are abstracted to an integer
timeline, naive values normalised to UTC as `_normalize_fs_dt` does);
`vsmap` models a string-keyed dict of strings (every `data` payload the
program builds has string values); `vstrlist` models a list of strings. -/
inductive Value where
  | vstr (s : String)
  | vint (n : Int)
  | vbool (b : Bool)
  | vnull
  | vtime (t : Int)
  | vstrlist (l : List String)
  | vsmap (m : List (String × String))
  deriving Repr, DecidableEq

/-- A Firestore document: an ordered field map. -/
abbrev Doc := List (String × Value)

/-- Field lookup, first occurrence wins. -/
def getField : Doc → String → Option Value
  | [], _ => none
  | (k', v) :: rest, k => if k' = k then some v else getField rest k

/-- Whether a document contains a field. -/
def hasField (d : Doc) (k : String) : Bool :=
  d.any (fun kv => kv.1 == k)

/-- Set one field of a document (replace in place, append if absent). -/
def setField : Doc → String → Value → Doc
  | [], k, v => [(k, v)]
  | (k', v') :: rest, k, v =>
      if k' = k then (k, v) :: rest else (k', v') :: setField rest k v

/-- Python dict construction `{**a, **b}`: keys of `b` override keys of `a`.
Only `getField` observations matter, so overridden `a` entries are dropped and
the `b` entries are placed in front. -/
def pyDictUnion (a b : Doc) : Doc :=
  (a.filter (fun kv => !hasField b kv.1)) ++ b

/-- Firestore `set(..., merge=True)` onto an existing document: every field
mentioned in `new` is written (overwriting), fields of `old` not mentioned in
`new` are preserved.  This is the field-level merge of the document store. -/
def mergeDoc (old new : Doc) : Doc :=
  new ++ (old.filter (fun kv => !hasField new kv.1))

/-- Lookup in a keyed collection (association list of documents). -/
def lookupK [DecidableEq κ] : List (κ × α) → κ → Option α
  | [], _ => none
  | (k', v) :: rest, k => if k' = k then some v else lookupK rest k

/-- Write a document at a key (replace if present, append if absent). -/
def setK [DecidableEq κ] : List (κ × α) → κ → α → List (κ × α)
  | [], k, v => [(k, v)]
  | (k', v') :: rest, k, v =>
      if k' = k then (k, v) :: rest else (k', v') :: setK rest k v

/-- Delete the document at a key. -/
def deleteK [DecidableEq κ] (l : List (κ × α)) (k : κ) : List (κ × α) :=
  l.filter (fun kv => decide (kv.1 ≠ k))

/-- The persisted collections touched by the core under verification:
`notification_events/{event_id}`, `users/{username}/notifications/{event_id}`
(keyed here by the pair `(username, event_id)`), and `media_uploads/{upload_id}`. -/
structure Store where
  notification_events : List (String × Doc)
  user_notifications : List ((String × String) × Doc)
  media_uploads : List (String × Doc)
  deriving Repr, DecidableEq

/-- The wall clock at the moment of a call: `now` is the server-timestamp value
(`firestore.SERVER_TIMESTAMP` resolves to it), `nowIso` is the client-side ISO
string produced by `_utc_now_iso()`. -/
structure Clock where
  now : Int
  nowIso : String
  deriving Repr, DecidableEq

-- ### Basic lemmas about documents and keyed collections

theorem lookupK_setK_self [DecidableEq κ] (l : List (κ × α)) (k : κ) (v : α) :
    lookupK (setK l k v) k = some v := by
  induction l with
  | nil => simp [setK, lookupK]
  | cons hd tl ih =>
      by_cases h : hd.1 = k
      · simp [setK, lookupK, h]
      · simp [setK, lookupK, h, ih]

theorem lookupK_setK_ne [DecidableEq κ] (l : List (κ × α)) (k k' : κ) (v : α)
    (h : k' ≠ k) : lookupK (setK l k v) k' = lookupK l k' := by
  induction l with
  | nil => simp [setK, lookupK, Ne.symm h]
  | cons hd tl ih =>
      by_cases hk : hd.1 = k
      · simp [setK, lookupK, hk, h, Ne.symm h]
      · simp [setK, lookupK, hk, ih]

theorem getField_some_of_hasField (d : Doc) (k : String) (h : hasField d k = true) :
    ∃ v, getField d k = some v := by
  induction d with
  | nil => simp [hasField] at h
  | cons hd tl ih =>
      by_cases hk : hd.1 = k
      · exact ⟨hd.2, by simp [getField, hk]⟩
      · simp [hasField, List.any_cons, hk] at h
        rcases ih (by simpa [hasField] using h) with ⟨v, hv⟩
        exact ⟨v, by simp [getField, hk, hv]⟩

theorem getField_append_left (a b : Doc) (k : String) (v : Value)
    (h : getField a k = some v) : getField (a ++ b) k = some v := by
  induction a with
  | nil => simp [getField] at h
  | cons hd tl ih =>
      by_cases hk : hd.1 = k
      · simp [getField, hk] at h ⊢; exact h
      · simp [getField, hk] at h ⊢; exact ih h

/-- On every field that `new` mentions, the merged document agrees with `new`. -/
theorem getField_mergeDoc_of_has (old new : Doc) (k : String)
    (h : hasField new k = true) : getField (mergeDoc old new) k = getField new k := by
  rcases getField_some_of_hasField new k h with ⟨v, hv⟩
  rw [hv]
  exact getField_append_left _ _ _ _ hv

/-- On fields that `new` does not mention, the merged document agrees with `old`:
the merge is field-level, not a whole-document replace. -/
theorem getField_mergeDoc_of_not_has (old new : Doc) (k : String)
    (h : hasField new k = false) : getField (mergeDoc old new) k = getField old k := by
  have hnew : getField new k = none := by
    induction new with
    | nil => simp [getField]
    | cons hd tl ih =>
        simp [hasField, List.any_cons] at h
        simp [getField, h.1, ih (by simpa [hasField] using h.2)]
  have happ : ∀ a : Doc, getField a k = none → ∀ b : Doc,
      getField (a ++ b) k = getField b k := by
    intro a ha
    induction a with
    | nil => intro b; simp
    | cons hd tl ih =>
        intro b
        by_cases hk : hd.1 = k
        · simp [getField, hk] at ha
        · simp [getField, hk] at ha ⊢; exact ih ha b
  rw [mergeDoc, happ _ hnew]
  induction old with
  | nil => simp [getField]
  | cons hd tl ih =>
      obtain ⟨k1, v1⟩ := hd
      by_cases hk : k1 = k
      · subst hk
        simp [List.filter_cons, h, getField]
      · by_cases hf : hasField new k1
        · simp [List.filter_cons, hf, getField, hk, ih]
        · simp [List.filter_cons, hf, getField, hk, ih]

-- ### Notification scaffold (`NotificationChannel` hierarchy and `NotificationService`)

/-- Constant `NOTIFICATION_SCHEMA_VERSION = 1`. -/
def NOTIFICATION_SCHEMA_VERSION : Int := 1

/-- The keyword arguments of `NotificationService.publish` (defaults as in the
source: `severity="info"`, `actor_username=None`, `device_id=None`, `data=None`). -/
structure PublishArgs where
  recipients : List String
  notif_type : String
  title : String
  body : String
  severity : String := "info"
  actor_username : Option String := none
  device_id : Option String := none
  data : Option (List (String × String)) := none
  deriving Repr, DecidableEq

/-- Encoding of `None`-or-string arguments as stored field values. -/
def optStr : Option String → Value
  | none => .vnull
  | some s => .vstr s

/-- The immutable event payload built inside `publish` (source lines 209-221).
`event_id` is the identifier generated once per publish call
(`str(uuid.uuid4())`), passed in explicitly here. -/
def mkPayload (clock : Clock) (event_id : String) (args : PublishArgs) : Doc :=
  [("schema_version", .vint NOTIFICATION_SCHEMA_VERSION),
   ("event_id", .vstr event_id),
   ("type", .vstr args.notif_type),
   ("title", .vstr args.title),
   ("body", .vstr args.body),
   ("severity", .vstr args.severity),
   ("actor_username", optStr args.actor_username),
   ("device_id", optStr args.device_id),
   ("data", .vsmap (args.data.getD [])),
   ("created_at_client_iso", .vstr clock.nowIso)]

/-- The channel variants of the source file.  `base` is the abstract
`NotificationChannel`, whose `deliver` raises `NotImplementedError`; it is the
in-repo example of a channel whose `deliver` throws. -/
inductive Channel where
  | base
  | firestoreEventLog
  | firestoreUserInbox
  | stubWebPush
  | stubMobilePush
  deriving Repr, DecidableEq

/-- The `name` class attribute of each channel. -/
def channelName : Channel → String
  | .base => "base"
  | .firestoreEventLog => "firestore_event_log"
  | .firestoreUserInbox => "firestore_user_inbox"
  | .stubWebPush => "web_push_stub"
  | .stubMobilePush => "mobile_push_stub"

/-- The per-recipient inbox document written by
`FirestoreUserInboxChannel.deliver` (source lines 128-141): the payload spread
together with recipient, read state, store timestamps and the per-destination
delivery map (nested maps flattened to dotted field names, which matches
Firestore recursive merge because the whole `delivery` map is always written). -/
def inboxWrittenDoc (clock : Clock) (payload : Doc) (username : String) : Doc :=
  pyDictUnion payload
    [("username", .vstr username),
     ("read", .vbool false),
     ("read_at", .vnull),
     ("created_at", .vtime clock.now),
     ("updated_at", .vtime clock.now),
     ("delivery.in_app.status", .vstr "delivered"),
     ("delivery.in_app.at_client_iso", .vstr clock.nowIso),
     ("delivery.web_push.status", .vstr "not_attempted"),
     ("delivery.mobile_push.status", .vstr "not_attempted")]

/-- Firestore `doc_ref.set(written, merge=True)`: create the document if absent,
otherwise field-level merge of the written map into the existing document. -/
def setMergeK (coll : List ((String × String) × Doc)) (key : String × String)
    (written : Doc) : List ((String × String) × Doc) :=
  setK coll key
    (match lookupK coll key with
     | none => written
     | some old => mergeDoc old written)

/-- The recipient loop of `FirestoreUserInboxChannel.deliver`, acting on the
`users/{username}/notifications/{event_id}` collection. -/
def inboxWrites (clock : Clock) (payload : Doc) (event_id : String) :
    List String → List ((String × String) × Doc) → List ((String × String) × Doc)
  | [], coll => coll
  | u :: us, coll =>
      inboxWrites clock payload event_id us
        (setMergeK coll (u, event_id) (inboxWrittenDoc clock payload u))

/-- The global event-log document written by `FirestoreEventLogChannel.deliver`
(source lines 96-100): `{**payload, "recipient_usernames": ..., "logged_at": ...}`. -/
def eventLogDoc (clock : Clock) (payload : Doc) (recipients : List String) : Doc :=
  pyDictUnion payload
    [("recipient_usernames", .vstrlist recipients),
     ("logged_at", .vtime clock.now)]

/-- One `channel.deliver(payload, recipients)` call.  An `Except.error` models a raised
Python exception crossing the channel boundary.  The two Firestore channels
read `payload["event_id"]` (a `KeyError` if absent — never the case for
payloads built by `publish`). -/
def deliver (c : Channel) (clock : Clock) (payload : Doc)
    (recipients : List String) (st : Store) : Except String (Doc × Store) :=
  match c with
  | .base => .error "NotImplementedError"
  | .firestoreEventLog =>
      match getField payload "event_id" with
      | some (.vstr event_id) =>
          .ok ([("channel", .vstr "firestore_event_log"), ("status", .vstr "ok"),
                ("logged_event_id", .vstr event_id)],
               { st with notification_events := (setK st.notification_events
                   event_id (eventLogDoc clock payload recipients)) })
      | _ => .error "KeyError: event_id"
  | .firestoreUserInbox =>
      match getField payload "event_id" with
      | some (.vstr event_id) =>
          .ok ([("channel", .vstr "firestore_user_inbox"), ("status", .vstr "ok"),
                ("writes", .vint recipients.length)],
               { st with user_notifications := (inboxWrites clock payload
                   event_id recipients st.user_notifications) })
      | _ => .error "KeyError: event_id"
  | .stubWebPush =>
      .ok ([("channel", .vstr "web_push_stub"), ("status", .vstr "skipped"),
            ("reason", .vstr "stub_not_implemented"),
            ("recipient_count", .vint recipients.length)], st)
  | .stubMobilePush =>
      .ok ([("channel", .vstr "mobile_push_stub"), ("status", .vstr "skipped"),
            ("reason", .vstr "stub_not_implemented"),
            ("recipient_count", .vint recipients.length)], st)

/-- The error outcome `publish` records when the `deliver` of a channel raises
(source lines 228-233). -/
def errOutcome (c : Channel) (e : String) : Doc :=
  [("channel", .vstr (channelName c)), ("status", .vstr "error"), ("error", .vstr e)]

/-- The channel loop of `publish` (source lines 223-233): every channel runs in
order; an exception from one channel is caught and converted into an error
outcome, leaving the store as that channel left it. -/
def runChannels (clock : Clock) (payload : Doc) (recipients : List String) :
    List Channel → Store → List Doc × Store
  | [], st => ([], st)
  | c :: cs, st =>
      match deliver c clock payload recipients st with
      | .ok (outcome, st') =>
          let r := runChannels clock payload recipients cs st'
          (outcome :: r.1, r.2)
      | .error e =>
          let r := runChannels clock payload recipients cs st
          (errOutcome c e :: r.1, r.2)

/-- The dictionary returned by `NotificationService.publish`. -/
structure PublishResult where
  status : String
  reason : Option String
  event_id : Option String
  recipient_count : Option Nat
  deliveries : List Doc
  deriving Repr, DecidableEq

/-- Embeds `NotificationService.publish` (source lines 187-240).  `event_id` is the
identifier `str(uuid.uuid4())` would produce, supplied as an explicit input;
it is consumed only on the non-empty-recipients path, where it is generated. -/
def publish (channels : List Channel) (clock : Clock) (event_id : String)
    (args : PublishArgs) (st : Store) : PublishResult × Store :=
  let recipients := args.recipients.filter (fun r => !r.isEmpty)
  if recipients.isEmpty then
    ({ status := "skipped", reason := some "no_recipients", event_id := none,
       recipient_count := none, deliveries := [] }, st)
  else
    let payload := mkPayload clock event_id args
    let r := runChannels clock payload recipients channels st
    ({ status := "ok", reason := none, event_id := some event_id,
       recipient_count := some recipients.length, deliveries := r.1 }, r.2)

/-- The channel set the module-level `notification_service` is constructed with
(source lines 274-282). -/
def appChannels : List Channel :=
  [.firestoreEventLog, .firestoreUserInbox, .stubWebPush, .stubMobilePush]

/-- Embeds `resolve_notification_recipients_for_device`: the sole recipient is the
acting user (when truthy), deduplicated preserving first-occurrence order. -/
def resolveNotificationRecipientsForDevice (device_id : Option String)
    (actor_username : Option String) : List String :=
  let recipients : List String :=
    match actor_username with
    | some a => if a.isEmpty then [] else [a]
    | none => []
  recipients.foldl (fun deduped r => if r ∈ deduped then deduped else deduped ++ [r]) []

/-- Embeds `publish_device_notification`: resolve recipients, then publish through the
module-level service (whose channels are `appChannels`). -/
def publishDeviceNotification (clock : Clock) (event_id : String)
    (actor_username device_id : String) (notif_type title body severity : String)
    (data : Option (List (String × String))) (st : Store) : PublishResult × Store :=
  publish appChannels clock event_id
    { recipients := resolveNotificationRecipientsForDevice (some device_id)
        (some actor_username),
      notif_type := notif_type, title := title, body := body,
      severity := severity, actor_username := some actor_username,
      device_id := some device_id, data := data } st

/-- Python `str.strip()`: drop leading and trailing whitespace. -/
def pyStrip (s : String) : String :=
  ⟨((s.data.dropWhile Char.isWhitespace).reverse.dropWhile Char.isWhitespace).reverse⟩

/-- Python `str.lower()` (ASCII range, which is all the routes compare). -/
def pyLower (s : String) : String :=
  ⟨s.data.map Char.toLower⟩

-- ### Call sites of `publish_device_notification` in the route handlers

/-- The notification side effect of `api_device_command` (source lines 463-473):
type `device_command`, severity `"info"`.  The f-string quoting of the command
inside the body is dropped; no claim depends on the literal body text. -/
def apiDeviceCommandNotify (clock : Clock) (event_id : String)
    (username device_id cmd : String) (st : Store) : PublishResult × Store :=
  publishDeviceNotification clock event_id username device_id "device_command"
    ("Command sent: " ++ cmd)
    (username ++ " sent " ++ cmd ++ " to device " ++ device_id ++ ".")
    "info" (some [("command", cmd), ("source", "api_device_command")]) st

/-- The notification side effect of `api_device_upload_image` (source lines
546-557): type `image_uploaded`, severity `"info"`. -/
def apiUploadImageNotify (clock : Clock) (event_id : String)
    (username device_id original_name upload_id : String) (st : Store) :
    PublishResult × Store :=
  publishDeviceNotification clock event_id username device_id "image_uploaded"
    "Image uploaded" (username ++ " uploaded " ++ original_name) "info"
    (some [("upload_id", upload_id), ("filename", original_name)]) st

/-- One entry of the `presets` table of `api_device_demo_notify`. -/
structure DemoPreset where
  notif_type : String
  title : String
  body : String
  severity : String
  data : List (String × String)
  deriving Repr, DecidableEq

/-- The `presets` dictionary of `api_device_demo_notify` (source lines 890-919). -/
def demoPresets (device_id : String) : List (String × DemoPreset) :=
  [("package_detected",
    { notif_type := "package_detected", title := "Package detected",
      body := "Device " ++ device_id ++ " detected a package.",
      severity := "success",
      data := [("source", "demo"), ("event", "package_detected")] }),
   ("door_left_open",
    { notif_type := "door_alert", title := "Door left open",
      body := "Device " ++ device_id ++ " door appears to be open.",
      severity := "warning",
      data := [("source", "demo"), ("event", "door_left_open")] }),
   ("device_offline",
    { notif_type := "device_status", title := "Device offline",
      body := "Device " ++ device_id ++ " stopped reporting status.",
      severity := "error",
      data := [("source", "demo"), ("event", "device_offline")] }),
   ("video_recorded",
    { notif_type := "video_recorded", title := "Video recorded",
      body := "Device " ++ device_id ++ " recorded a new video clip.",
      severity := "info",
      data := [("source", "demo"), ("event", "video_recorded")] })]

inductive DemoNotifyResult where
  | invalidPreset
  | notified (result : PublishResult)
  deriving Repr, DecidableEq

/-- Embeds `api_device_demo_notify` (source lines 877-942): resolve the preset
(default `package_detected`, falsy treated as absent, then `.strip()`), reject
unknown presets with a 400, otherwise publish through the shared service. -/
def apiDeviceDemoNotify (clock : Clock) (event_id : String)
    (username device_id : String) (presetParam : Option String) (st : Store) :
    DemoNotifyResult × Store :=
  let preset := pyStrip
    (match presetParam with
     | none => "package_detected"
     | some s => if s.isEmpty then "package_detected" else s)
  match lookupK (demoPresets device_id) preset with
  | none => (.invalidPreset, st)
  | some p =>
      let r := publishDeviceNotification clock event_id username device_id
        p.notif_type p.title p.body p.severity (some p.data) st
      (.notified r.1, r.2)

/-- The severity enum of the data model: `info | warning | error | success`. -/
def VALID_SEVERITIES : List String := ["info", "warning", "error", "success"]

-- ### Inbox lifecycle (list, clear)

/-- The documents of `users/{username}/notifications`, as `(event_id, doc)`
pairs, in store order (the order a plain collection stream yields them). -/
def userNotifs (coll : List ((String × String) × Doc)) (username : String) :
    List (String × Doc) :=
  coll.filterMap (fun x => if x.1.1 = username then some (x.1.2, x.2) else none)

/-- Whether a stored inbox entry satisfies the query filter `read == True`. -/
def docRead (d : Doc) : Bool :=
  decide (getField d "read" = some (.vbool true))

/-- Whether a stored inbox entry satisfies the query filter `read == False`. -/
def docUnread (d : Doc) : Bool :=
  decide (getField d "read" = some (.vbool false))

/-- Clamping `limit = max(1, min(limit, 100))` (source line 712). -/
def clampLimit (n : Int) : Int := max 1 (min n 100)

/-- The `created_at` timestamp of a document, when present as a timestamp. -/
def createdAtTime (d : Doc) : Option Int :=
  match getField d "created_at" with
  | some (.vtime t) => some t
  | _ => none

/-- Insert into a list sorted by decreasing key, stable for equal keys. -/
def insDesc {β : Type} (x : Int × β) : List (Int × β) → List (Int × β)
  | [] => [x]
  | y :: ys => if y.1 < x.1 then x :: y :: ys else y :: insDesc x ys

/-- Stable insertion sort by decreasing key. -/
def sortInsDesc {β : Type} : List (Int × β) → List (Int × β)
  | [] => []
  | x :: xs => insDesc x (sortInsDesc xs)

/-- Firestore `order_by("created_at", DESCENDING)`: documents lacking the
ordering field are not returned by such a query; the rest are sorted newest
first. -/
def orderByCreatedDesc (l : List (String × Doc)) : List (String × Doc) :=
  (sortInsDesc (l.filterMap
    (fun p => (createdAtTime p.2).map (fun t => (t, p))))).map (fun q => q.2)

/-- Embeds `_serialize_doc` / the per-item serialization of the list routes: the
JSON-safe conversion keeps every field value it denotes (timestamps change
representation only, which `Value` abstracts over) and adds the document id. -/
def serializeDoc (p : String × Doc) : Doc :=
  setField p.2 "id" (.vstr p.1)

/-- Embeds `request.args.get("unread_only", "false").lower() in ("1", "true", "yes")`. -/
def parseUnreadOnly (p : Option String) : Bool :=
  (["1", "true", "yes"] : List String).contains (pyLower (p.getD "false"))

inductive ListResult where
  | badLimit
  | listed (username : String) (count : Nat) (items : List Doc)
  deriving Repr, DecidableEq

/-- Embeds `api_notifications_list` (source lines 699-735).  `limitParsed` is the
result of the Python builtin `int(limit_raw)` on the `limit` query parameter:
`none` models the `ValueError` of a non-integer parameter, and an absent
parameter arrives as `some 20` via the `"20"` default. -/
def apiNotificationsList (st : Store) (username : String)
    (limitParsed : Option Int) (unreadOnlyParam : Option String) : ListResult :=
  match limitParsed with
  | none => .badLimit
  | some n =>
      let limit := clampLimit n
      let base := userNotifs st.user_notifications username
      let filtered :=
        if parseUnreadOnly unreadOnlyParam then base.filter (fun p => docUnread p.2)
        else base
      let docs := (orderByCreatedDesc filtered).take limit.toNat
      .listed username docs.length (docs.map serializeDoc)

/-- Embeds `(data.get("mode") or "read").strip().lower()` (source line 835). -/
def normalizeMode (modeInput : Option String) : String :=
  pyLower (pyStrip
    (match modeInput with
     | none => "read"
     | some s => if s.isEmpty then "read" else s))

inductive ClearResult where
  | badMode
  | cleared (message : String) (cleared_count : Nat) (mode : String)
  deriving Repr, DecidableEq

/-- The `cleared_count` of a clear response, when the mode was accepted. -/
def ClearResult.count : ClearResult → Option Nat
  | .badMode => none
  | .cleared _ n _ => some n

/-- Constant `BATCH_SIZE = 450`: the per-batch ceiling used by `api_notifications_clear`
(Firestore batched writes allow up to 500 operations; 450 leaves headroom). -/
def CLEAR_BATCH_SIZE : Nat := 450

/-- The `range(0, len(docs), BATCH_SIZE)` chunking of the documents to delete. -/
def chunkList {α : Type} (l : List α) : List (List α) :=
  if h : l.isEmpty then []
  else l.take CLEAR_BATCH_SIZE :: chunkList (l.drop CLEAR_BATCH_SIZE)
termination_by l.length
decreasing_by
  simp only [List.length_drop]
  have hne : l ≠ [] := by simpa [List.isEmpty_iff] using h
  have := List.length_pos.2 hne
  simp [CLEAR_BATCH_SIZE]
  omega

/-- One committed delete batch: remove each selected document of the user. -/
def deleteDocs (username : String) (docs : List (String × Doc))
    (coll : List ((String × String) × Doc)) : List ((String × String) × Doc) :=
  docs.foldl (fun c p => deleteK c (username, p.1)) coll

/-- Embeds `api_notifications_clear` (source lines 818-875): validate the mode
(`"read"` is the default), select the documents to delete (only `read == True`
ones in mode `"read"`), short-circuit on an empty selection, otherwise delete
in committed chunks of at most `CLEAR_BATCH_SIZE`, summing the deleted count. -/
def apiNotificationsClear (st : Store) (username : String)
    (modeInput : Option String) : ClearResult × Store :=
  let mode := normalizeMode modeInput
  if mode = "all" ∨ mode = "read" then
    let base := userNotifs st.user_notifications username
    let docs := if mode = "read" then base.filter (fun p => docRead p.2) else base
    if docs.isEmpty then (.cleared "Nothing to clear" 0 mode, st)
    else
      let final := (chunkList docs).foldl
        (fun acc chunk =>
          (acc.1 + chunk.length,
           { acc.2 with user_notifications :=
               (deleteDocs username chunk acc.2.user_notifications) }))
        (0, st)
      (.cleared "Notifications cleared" final.1 mode, final.2)
  else (.badMode, st)

-- ### Ephemeral media registry

/-- Constant `MEDIA_TTL_SECONDS = 180` (3 minutes). -/
def MEDIA_TTL_SECONDS : Int := 180

/-- The `media_uploads/{upload_id}` metadata document written by
`api_device_upload_image` (source lines 529-541): `created_at` is
server-assigned and `expires_at` is the upload-time clock plus the fixed TTL
(both drawn from the same call-time clock here). -/
def mediaUploadDoc (device_id username original_name stored_filename
    relative_path content_type : String) (size_bytes : Int) (clock : Clock) : Doc :=
  [("device_id", .vstr device_id),
   ("uploaded_by", .vstr username),
   ("original_filename", .vstr original_name),
   ("stored_filename", .vstr stored_filename),
   ("relative_path", .vstr relative_path),
   ("content_type", .vstr content_type),
   ("size_bytes", .vint size_bytes),
   ("created_at", .vtime clock.now),
   ("expires_at", .vtime (clock.now + MEDIA_TTL_SECONDS)),
   ("ttl_seconds", .vint MEDIA_TTL_SECONDS)]

/-- The read-time expiry test of the media routes: a stored `expires_at`
timestamp at or before now.  A missing or non-timestamp `expires_at` never
counts as expired, exactly as the `isinstance(exp, datetime)` guard behaves. -/
def mediaExpired (d : Doc) (now : Int) : Bool :=
  match getField d "expires_at" with
  | some (.vtime e) => decide (e ≤ now)
  | _ => false

inductive MediaListResult where
  | missingDeviceId
  | listed (device_id : String) (count : Nat) (items : List Doc)
  deriving Repr, DecidableEq

/-- The items of a media list response (empty for the 400 response). -/
def MediaListResult.items : MediaListResult → List Doc
  | .missingDeviceId => []
  | .listed _ _ its => its

/-- Embeds `api_media_list` (source lines 570-606): require a device id, query by
`device_id` ordered by creation time descending with `limit(50)`, then drop the
entries already expired at read time and serialize the survivors. -/
def apiMediaList (st : Store) (now : Int) (deviceParam : Option String) :
    MediaListResult :=
  let device_id := pyStrip (deviceParam.getD "")
  if device_id.isEmpty then .missingDeviceId
  else
    let q := (orderByCreatedDesc (st.media_uploads.filter
      (fun p => decide (getField p.2 "device_id" = some (.vstr device_id))))).take 50
    let items := q.filterMap
      (fun p => if mediaExpired p.2 now then none else some (serializeDoc p))
    .listed device_id items.length items

/-- The filesystem facts `api_media_download` consults, as an oracle over the
stored relative path: whether `(BASE_DIR / rel).resolve()` stays under the
resolved `UPLOAD_ROOT`, whether that file exists on disk, and its base name.
Path resolution and the disk are external collaborators of the core. -/
structure MediaFs where
  resolvesInsideRoot : String → Bool
  fileExists : String → Bool
  baseName : String → String

/-- The distinct responses of `api_media_download`: 404 not found, 410 expired,
500 missing metadata path, 400 invalid (escaping) path, 410 file missing on
server, 200 file served. -/
inductive DownloadResult where
  | notFound
  | expiredGone
  | missingRelativePath
  | invalidPath
  | fileMissingGone
  | served (download_name : String)
  deriving Repr, DecidableEq

/-- Embeds `api_media_download` (source lines 609-640). -/
def apiMediaDownload (st : Store) (mfs : MediaFs) (now : Int)
    (upload_id : String) : DownloadResult :=
  match lookupK st.media_uploads upload_id with
  | none => .notFound
  | some data =>
      if mediaExpired data now then .expiredGone
      else
        match getField data "relative_path" with
        | some (.vstr rel) =>
            if rel.isEmpty then .missingRelativePath
            else if !mfs.resolvesInsideRoot rel then .invalidPath
            else if !mfs.fileExists rel then .fileMissingGone
            else .served
              (match getField data "original_filename" with
               | some (.vstr n) => if n.isEmpty then mfs.baseName rel else n
               | _ => mfs.baseName rel)
        | _ => .missingRelativePath

-- ### Shared lemmas about the embedded operations

theorem getField_setField_ne (d : Doc) (k k' : String) (v : Value) (h : k ≠ k') :
    getField (setField d k' v) k = getField d k := by
  induction d with
  | nil => simp [setField, getField, Ne.symm h]
  | cons hd tl ih =>
      by_cases hk : hd.1 = k'
      · simp [setField, hk, getField, Ne.symm h]
      · simp [setField, hk, getField, ih]

theorem getField_mkPayload_event_id (clock : Clock) (event_id : String)
    (args : PublishArgs) :
    getField (mkPayload clock event_id args) "event_id" = some (.vstr event_id) := rfl

theorem getField_mkPayload_severity (clock : Clock) (event_id : String)
    (args : PublishArgs) :
    getField (mkPayload clock event_id args) "severity" = some (.vstr args.severity) := rfl

theorem getField_eventLogDoc_event_id (clock clock' : Clock) (event_id : String)
    (args : PublishArgs) (recipients : List String) :
    getField (eventLogDoc clock' (mkPayload clock event_id args) recipients) "event_id"
      = some (.vstr event_id) := rfl

theorem getField_eventLogDoc_severity (clock clock' : Clock) (event_id : String)
    (args : PublishArgs) (recipients : List String) :
    getField (eventLogDoc clock' (mkPayload clock event_id args) recipients) "severity"
      = some (.vstr args.severity) := rfl

theorem inboxWrittenDoc_fields (clock clock' : Clock) (event_id : String)
    (args : PublishArgs) (u : String) :
    getField (inboxWrittenDoc clock' (mkPayload clock event_id args) u) "event_id"
        = some (.vstr event_id) ∧
    getField (inboxWrittenDoc clock' (mkPayload clock event_id args) u) "severity"
        = some (.vstr args.severity) ∧
    getField (inboxWrittenDoc clock' (mkPayload clock event_id args) u) "read"
        = some (.vbool false) :=
  ⟨rfl, rfl, rfl⟩

theorem hasField_inboxWrittenDoc (clock clock' : Clock) (event_id : String)
    (args : PublishArgs) (u : String) :
    hasField (inboxWrittenDoc clock' (mkPayload clock event_id args) u) "event_id" = true ∧
    hasField (inboxWrittenDoc clock' (mkPayload clock event_id args) u) "severity" = true ∧
    hasField (inboxWrittenDoc clock' (mkPayload clock event_id args) u) "read" = true :=
  ⟨rfl, rfl, rfl⟩

/-- The document present at `(u, event_id)` after a merge-upsert of the written
inbox document carries the written `event_id`, `severity` and `read` fields. -/
theorem setMergeK_written_fields (clock clock' : Clock) (event_id : String)
    (args : PublishArgs) (u : String) (coll : List ((String × String) × Doc))
    (key : String × String) :
    ∃ d, lookupK (setMergeK coll key
        (inboxWrittenDoc clock' (mkPayload clock event_id args) u)) key = some d ∧
      getField d "event_id" = some (.vstr event_id) ∧
      getField d "severity" = some (.vstr args.severity) ∧
      getField d "read" = some (.vbool false) := by
  unfold setMergeK
  rcases hl : lookupK coll key with _ | old
  · exact ⟨_, lookupK_setK_self _ _ _, (inboxWrittenDoc_fields clock clock' event_id args u).1,
      (inboxWrittenDoc_fields clock clock' event_id args u).2.1,
      (inboxWrittenDoc_fields clock clock' event_id args u).2.2⟩
  · refine ⟨_, lookupK_setK_self _ _ _, ?_, ?_, ?_⟩
    · rw [getField_mergeDoc_of_has _ _ _ (hasField_inboxWrittenDoc clock clock' event_id args u).1]
      exact (inboxWrittenDoc_fields clock clock' event_id args u).1
    · rw [getField_mergeDoc_of_has _ _ _ (hasField_inboxWrittenDoc clock clock' event_id args u).2.1]
      exact (inboxWrittenDoc_fields clock clock' event_id args u).2.1
    · rw [getField_mergeDoc_of_has _ _ _ (hasField_inboxWrittenDoc clock clock' event_id args u).2.2]
      exact (inboxWrittenDoc_fields clock clock' event_id args u).2.2

/-- Keys not targeted by the inbox recipient loop are left untouched. -/
theorem inboxWrites_frame (clock : Clock) (payload : Doc) (event_id : String) :
    ∀ (us : List String) (coll : List ((String × String) × Doc))
      (key : String × String), (key.1 ∉ us ∨ key.2 ≠ event_id) →
      lookupK (inboxWrites clock payload event_id us coll) key = lookupK coll key := by
  intro us
  induction us with
  | nil => intro coll key _; rfl
  | cons u tl ih =>
      intro coll key hk
      have hk' : key.1 ∉ tl ∨ key.2 ≠ event_id := by
        rcases hk with h | h
        · exact Or.inl (fun hm => h (List.mem_cons_of_mem _ hm))
        · exact Or.inr h
      have hne : key ≠ (u, event_id) := by
        rcases hk with h | h
        · intro he; exact h (by simp [he])
        · intro he; exact h (by simp [he])
      rw [inboxWrites, ih _ _ hk', setMergeK, lookupK_setK_ne _ _ _ _ hne]

/-- Every recipient processed by the inbox loop ends with a stored document
whose `event_id`, `severity` and `read` fields are the published ones. -/
theorem inboxWrites_mem (clock clock' : Clock) (event_id : String) (args : PublishArgs) :
    ∀ (us : List String) (coll : List ((String × String) × Doc)) (u : String),
      u ∈ us →
      ∃ d, lookupK (inboxWrites clock' (mkPayload clock event_id args) event_id us coll)
          (u, event_id) = some d ∧
        getField d "event_id" = some (.vstr event_id) ∧
        getField d "severity" = some (.vstr args.severity) ∧
        getField d "read" = some (.vbool false) := by
  intro us
  induction us with
  | nil => intro coll u hu; simp at hu
  | cons v tl ih =>
      intro coll u hu
      by_cases hmem : u ∈ tl
      · exact ih _ u hmem
      · have huv : u = v := by
          rcases List.mem_cons.1 hu with h | h
          · exact h
          · exact absurd h hmem
        subst huv
        rw [inboxWrites, inboxWrites_frame _ _ _ _ _ _ (Or.inl hmem)]
        exact setMergeK_written_fields clock clock' event_id args u _ _

/-- Splitting the channel loop of `publish` at any point. -/
theorem runChannels_append (clock : Clock) (payload : Doc) (recipients : List String) :
    ∀ (a b : List Channel) (st : Store),
      runChannels clock payload recipients (a ++ b) st =
        ((runChannels clock payload recipients a st).1 ++
          (runChannels clock payload recipients b
            (runChannels clock payload recipients a st).2).1,
         (runChannels clock payload recipients b
            (runChannels clock payload recipients a st).2).2) := by
  intro a
  induction a with
  | nil => intro b st; rfl
  | cons c tl ih =>
      intro b st
      rcases hc : deliver c clock payload recipients st with e | ⟨outcome, st'⟩
      · simp [runChannels, hc, ih]
      · simp [runChannels, hc, ih]

/-- Unfolding `publish` over the configured channel set: the event-log write,
the inbox recipient loop, and the two stub outcomes, in order. -/
theorem publish_appChannels (clock : Clock) (event_id : String) (args : PublishArgs)
    (st : Store) (h : args.recipients.filter (fun r => !r.isEmpty) ≠ []) :
    publish appChannels clock event_id args st =
      ({ status := "ok", reason := none, event_id := some event_id,
         recipient_count := some (args.recipients.filter (fun r => !r.isEmpty)).length,
         deliveries :=
           [[("channel", .vstr "firestore_event_log"), ("status", .vstr "ok"),
             ("logged_event_id", .vstr event_id)],
            [("channel", .vstr "firestore_user_inbox"), ("status", .vstr "ok"),
             ("writes", .vint (args.recipients.filter (fun r => !r.isEmpty)).length)],
            [("channel", .vstr "web_push_stub"), ("status", .vstr "skipped"),
             ("reason", .vstr "stub_not_implemented"),
             ("recipient_count", .vint (args.recipients.filter (fun r => !r.isEmpty)).length)],
            [("channel", .vstr "mobile_push_stub"), ("status", .vstr "skipped"),
             ("reason", .vstr "stub_not_implemented"),
             ("recipient_count", .vint (args.recipients.filter (fun r => !r.isEmpty)).length)]] },
       { st with
           notification_events := (setK st.notification_events event_id
             (eventLogDoc clock (mkPayload clock event_id args)
               (args.recipients.filter (fun r => !r.isEmpty)))),
           user_notifications := (inboxWrites clock (mkPayload clock event_id args)
             event_id (args.recipients.filter (fun r => !r.isEmpty))
             st.user_notifications) }) := by
  have he : (args.recipients.filter (fun r => !r.isEmpty)).isEmpty = false := by
    simp [List.isEmpty_iff, h]
  simp only [publish, he, Bool.false_eq_true, if_false, appChannels]
  rfl

-- ### Claim C3

/-- C3: a publish call whose recipient list is empty after dropping falsy
entries returns `status="skipped"`, `reason="no_recipients"`, empty
`deliveries`, leaves every store collection untouched, and its behaviour is
independent of the channel set and of the event-id generator — no payload is
built, no event id consumed, no channel invoked, no write performed. -/
theorem publish_no_recipients_skips (channels : List Channel) (clock : Clock)
    (event_id : String) (args : PublishArgs) (st : Store)
    (h : args.recipients.filter (fun r => !r.isEmpty) = []) :
    publish channels clock event_id args st =
      ({ status := "skipped", reason := some "no_recipients", event_id := none,
         recipient_count := none, deliveries := [] }, st) ∧
    ∀ (channels' : List Channel) (event_id' : String),
      publish channels clock event_id args st =
        publish channels' clock event_id' args st := by
  have he : (args.recipients.filter (fun r => !r.isEmpty)).isEmpty = true := by
    simp [List.isEmpty_iff, h]
  constructor
  · simp [publish, he]
  · intro channels' event_id'
    simp [publish, he]

theorem publish_no_recipients_skips_witness :
    publish appChannels ⟨0, "t0"⟩ "evt-w3"
        { recipients := ["", ""], notif_type := "t", title := "T", body := "B" }
        ⟨[], [], []⟩ =
      ({ status := "skipped", reason := some "no_recipients", event_id := none,
         recipient_count := none, deliveries := [] }, (⟨[], [], []⟩ : Store)) :=
  (publish_no_recipients_skips appChannels ⟨0, "t0"⟩ "evt-w3"
    { recipients := ["", ""], notif_type := "t", title := "T", body := "B" }
    ⟨[], [], []⟩ (by decide)).1

-- ### Claim C6

theorem clampLimit_idem (n : Int) : clampLimit (clampLimit n) = clampLimit n := by
  simp only [clampLimit]
  omega

/-- C6: a `limit` parameter that does not parse as an integer is rejected with
a validation error, and an integer limit is served exactly as its clamp into
`[1, 100]` would be — a request for 500 behaves as limit 100, a request for 0
or a negative value as limit 1. -/
theorem list_limit_clamped (st : Store) (username : String) (uo : Option String) :
    apiNotificationsList st username none uo = .badLimit ∧
    (∀ n : Int,
      apiNotificationsList st username (some n) uo =
        apiNotificationsList st username (some (clampLimit n)) uo ∧
      1 ≤ clampLimit n ∧ clampLimit n ≤ 100) ∧
    clampLimit 500 = 100 ∧ clampLimit 0 = 1 ∧ clampLimit (-25) = 1 := by
  refine ⟨rfl, fun n => ⟨?_, ?_, ?_⟩, by decide, by decide, by decide⟩
  · simp only [apiNotificationsList, clampLimit_idem]
  · simp only [clampLimit]; omega
  · simp only [clampLimit]; omega

-- ### Claim C2

theorem runChannels_base_cons (clock : Clock) (payload : Doc)
    (recipients : List String) (post : List Channel) (st : Store) :
    runChannels clock payload recipients (Channel.base :: post) st =
      (errOutcome Channel.base "NotImplementedError" ::
        (runChannels clock payload recipients post st).1,
       (runChannels clock payload recipients post st).2) := rfl

/-- C2: an exception raised by one channel (the abstract base channel, whose
`deliver` raises `NotImplementedError`) is not propagated: `publish` still
returns `status="ok"`, the channels before and after it run exactly as they
would without the failing channel (same outcomes, same final store), and the
failing channel contributes an `{status:"error", error:...}` outcome in place. -/
theorem publish_isolates_channel_exception (pre post : List Channel)
    (clock : Clock) (event_id : String) (args : PublishArgs) (st : Store)
    (h : args.recipients.filter (fun r => !r.isEmpty) ≠ []) :
    let recipients := args.recipients.filter (fun r => !r.isEmpty)
    let payload := mkPayload clock event_id args
    let r1 := runChannels clock payload recipients pre st
    let r2 := runChannels clock payload recipients post r1.2
    publish (pre ++ Channel.base :: post) clock event_id args st =
      ({ status := "ok", reason := none, event_id := some event_id,
         recipient_count := some recipients.length,
         deliveries := r1.1 ++ errOutcome Channel.base "NotImplementedError" :: r2.1 },
       r2.2) ∧
    publish (pre ++ post) clock event_id args st =
      ({ status := "ok", reason := none, event_id := some event_id,
         recipient_count := some recipients.length,
         deliveries := r1.1 ++ r2.1 }, r2.2) := by
  intro recipients payload r1 r2
  have he : recipients.isEmpty = false := by
    simp only [recipients, List.isEmpty_iff]
    simpa using h
  constructor
  · simp only [publish, he, Bool.false_eq_true, if_false,
      runChannels_append, runChannels_base_cons]
  · simp only [publish, he, Bool.false_eq_true, if_false, runChannels_append]

theorem publish_isolates_channel_exception_witness :
    (publish [Channel.firestoreEventLog, Channel.base, Channel.stubWebPush]
        ⟨7, "t7"⟩ "evt-w2"
        { recipients := ["alice"], notif_type := "t", title := "T", body := "B" }
        ⟨[], [], []⟩).1.status = "ok" ∧
    (publish [Channel.firestoreEventLog, Channel.base, Channel.stubWebPush]
        ⟨7, "t7"⟩ "evt-w2"
        { recipients := ["alice"], notif_type := "t", title := "T", body := "B" }
        ⟨[], [], []⟩).1.deliveries.length = 3 := by
  have hiso := publish_isolates_channel_exception [Channel.firestoreEventLog]
    [Channel.stubWebPush] ⟨7, "t7"⟩ "evt-w2"
    { recipients := ["alice"], notif_type := "t", title := "T", body := "B" }
    ⟨[], [], []⟩ (by decide)
  rw [show ([Channel.firestoreEventLog, Channel.base, Channel.stubWebPush] : List Channel)
      = [Channel.firestoreEventLog] ++ Channel.base :: [Channel.stubWebPush] from rfl,
    hiso.1]
  exact ⟨rfl, rfl⟩

-- ### Claim C7

/-- The upload metadata document of the TTL example: registered at time 1000
with the fixed 180 second TTL, so it expires at 1180. -/
def c7Upload : Doc :=
  mediaUploadDoc "dev1" "student" "a.jpg" "u1.jpg"
    "src/uploads/device_dev1/u1.jpg" "image/jpeg" 10 ⟨1000, "iso"⟩

def c7Store : Store := ⟨[], [], [("u1", c7Upload)]⟩

/-- C7: every item returned by the media listing has a stored expiry strictly
after the read-time clock — entries whose `expires_at` is at or before now are
silently omitted.  Concretely, an upload with `ttl_seconds = 180` is included
when listed 179 seconds after creation and excluded 181 seconds after. -/
theorem media_list_filters_expired :
    (∀ (st : Store) (now : Int) (dp : Option String) (d : Doc),
        d ∈ (apiMediaList st now dp).items →
        ∀ e : Int, getField d "expires_at" = some (.vtime e) → now < e) ∧
    ((apiMediaList c7Store (1000 + 179) (some "dev1")).items.length = 1 ∧
     (apiMediaList c7Store (1000 + 181) (some "dev1")).items = [] ∧
     getField c7Upload "ttl_seconds" = some (.vint 180) ∧
     getField c7Upload "expires_at" = some (.vtime (1000 + MEDIA_TTL_SECONDS))) := by
  constructor
  · intro st now dp d hd e he
    by_cases hdev : (pyStrip (dp.getD "")).isEmpty
    · simp [apiMediaList, hdev, MediaListResult.items] at hd
    · simp only [apiMediaList, hdev, Bool.false_eq_true, if_false,
        MediaListResult.items, List.mem_filterMap] at hd
      rcases hd with ⟨p, _, hp⟩
      by_cases hexp : mediaExpired p.2 now
      · simp [hexp] at hp
      · simp only [hexp, Bool.false_eq_true, if_false, Option.some.injEq] at hp
        subst hp
        rw [serializeDoc, getField_setField_ne _ _ _ _ (by decide)] at he
        rw [mediaExpired, he] at hexp
        simp at hexp
        omega
  · exact ⟨by decide, by decide, by decide, by decide⟩

theorem media_list_filters_expired_witness :
    (1000 : Int) + 179 < 1000 + MEDIA_TTL_SECONDS :=
  media_list_filters_expired.1 c7Store (1000 + 179) (some "dev1")
    (serializeDoc ("u1", c7Upload)) (by decide) (1000 + MEDIA_TTL_SECONDS)
    (by decide)

-- ### Claim C8

/-- C8: the media download taxonomy.  A missing record is NotFound (404); an
existing record past its expiry is Gone (410), distinct from NotFound; a
record whose resolved storage path escapes the upload root is refused with the
path-validation error (400) and nothing is served; a record whose backing file
is absent from storage is Gone (410), distinct from NotFound. -/
theorem media_download_error_taxonomy (st : Store) (mfs : MediaFs) (now : Int)
    (upload_id : String) :
    (lookupK st.media_uploads upload_id = none →
      apiMediaDownload st mfs now upload_id = .notFound) ∧
    (∀ d, lookupK st.media_uploads upload_id = some d →
      mediaExpired d now = true →
      apiMediaDownload st mfs now upload_id = .expiredGone) ∧
    (∀ d rel, lookupK st.media_uploads upload_id = some d →
      mediaExpired d now = false →
      getField d "relative_path" = some (.vstr rel) → rel.isEmpty = false →
      mfs.resolvesInsideRoot rel = false →
      apiMediaDownload st mfs now upload_id = .invalidPath) ∧
    (∀ d rel, lookupK st.media_uploads upload_id = some d →
      mediaExpired d now = false →
      getField d "relative_path" = some (.vstr rel) → rel.isEmpty = false →
      mfs.resolvesInsideRoot rel = true → mfs.fileExists rel = false →
      apiMediaDownload st mfs now upload_id = .fileMissingGone) ∧
    (DownloadResult.expiredGone ≠ DownloadResult.notFound ∧
     DownloadResult.fileMissingGone ≠ DownloadResult.notFound ∧
     ∀ name, DownloadResult.invalidPath ≠ DownloadResult.served name) := by
  refine ⟨?_, ?_, ?_, ?_, by decide, by decide, fun name => by simp⟩
  · intro hnone; simp [apiMediaDownload, hnone]
  · intro d hd hexp; simp [apiMediaDownload, hd, hexp]
  · intro d rel hd hexp hrel hne hroot
    simp [apiMediaDownload, hd, hexp, hrel, hne, hroot]
  · intro d rel hd hexp hrel hne hroot hfile
    simp [apiMediaDownload, hd, hexp, hrel, hne, hroot, hfile]

theorem media_download_error_taxonomy_witness :
    apiMediaDownload c7Store
        ⟨fun _ => false, fun _ => true, fun r => r⟩ 1050 "u1" = .invalidPath ∧
    apiMediaDownload c7Store
        ⟨fun _ => true, fun _ => false, fun r => r⟩ 1300 "u1" = .expiredGone ∧
    apiMediaDownload c7Store
        ⟨fun _ => true, fun _ => false, fun r => r⟩ 1050 "u1" = .fileMissingGone ∧
    apiMediaDownload (⟨[], [], []⟩ : Store)
        ⟨fun _ => true, fun _ => true, fun r => r⟩ 1050 "u1" = .notFound := by
  refine ⟨?_, ?_, ?_, ?_⟩
  · exact (media_download_error_taxonomy c7Store
      ⟨fun _ => false, fun _ => true, fun r => r⟩ 1050 "u1").2.2.1 c7Upload
      "src/uploads/device_dev1/u1.jpg" (by decide) (by decide) (by decide)
      (by decide) rfl
  · exact (media_download_error_taxonomy c7Store
      ⟨fun _ => true, fun _ => false, fun r => r⟩ 1300 "u1").2.1 c7Upload
      (by decide) (by decide)
  · exact (media_download_error_taxonomy c7Store
      ⟨fun _ => true, fun _ => false, fun r => r⟩ 1050 "u1").2.2.2.1 c7Upload
      "src/uploads/device_dev1/u1.jpg" (by decide) (by decide) (by decide)
      (by decide) rfl rfl
  · exact (media_download_error_taxonomy (⟨[], [], []⟩ : Store)
      ⟨fun _ => true, fun _ => true, fun r => r⟩ 1050 "u1").1 rfl

-- ### Claim C1 (code bug)

def c1Clock : Clock := ⟨500, "T500"⟩

def c1Args : PublishArgs :=
  { recipients := ["alice"], notif_type := "device_command",
    title := "T", body := "B" }

/-- An inbox entry already marked read (`read=true`, `read_at` non-null), with
an extra field `note` not mentioned by the channel write. -/
def c1OldEntry : Doc :=
  [("event_id", .vstr "evt-1"), ("username", .vstr "alice"),
   ("read", .vbool true), ("read_at", .vtime 50), ("note", .vstr "kept")]

def c1Store : Store :=
  { notification_events := [],
    user_notifications := [(("alice", "evt-1"), c1OldEntry)],
    media_uploads := [] }

/-- C1 fails on the code: re-delivering a payload with the already-stored
`event_id` to a recipient whose entry has `read=true` resets `read` to false
and `read_at` to null, because the merge-upsert payload of
`FirestoreUserInboxChannel.deliver` itself contains `read=False` and
`read_at=None`.  The merge is indeed field-level (the unrelated `note` field
survives), but field-level merge only preserves fields absent from the written
map, and `read`/`read_at` are present in it. -/
theorem inbox_republish_resets_read_fields :
    ∃ out st',
      deliver .firestoreUserInbox c1Clock (mkPayload c1Clock "evt-1" c1Args)
          ["alice"] c1Store = .ok (out, st') ∧
      ∃ d, lookupK st'.user_notifications ("alice", "evt-1") = some d ∧
        getField d "read" = some (.vbool false) ∧
        getField d "read_at" = some .vnull ∧
        getField d "note" = some (.vstr "kept") ∧
        getField c1OldEntry "read" = some (.vbool true) ∧
        getField c1OldEntry "read_at" = some (.vtime 50) :=
  ⟨_, _, rfl, _, rfl, rfl, rfl, rfl, rfl, rfl⟩

-- ### Claim C10

/-- A store in which device `dev` has 51 uploads: the 50 newest are expired at
read time 200, the oldest is still live. -/
def c10Store : Store :=
  ⟨[], [],
   ((List.range 50).map (fun i =>
      ("m" ++ toString i,
       [("device_id", Value.vstr "dev"),
        ("created_at", Value.vtime (100 + (i : Int))),
        ("expires_at", Value.vtime 150)]))) ++
   [("old",
     [("device_id", Value.vstr "dev"),
      ("created_at", Value.vtime 1),
      ("expires_at", Value.vtime 10000)])]⟩

/-- C10: the media listing applies `limit(50)` to the stored query before the
expiry filter, so a device with more than 50 entries, the newest 50 of them
expired, receives fewer live entries than exist: here the listing is empty
although one live entry is stored. -/
theorem media_list_limit_starves_live_entries :
    (apiMediaList c10Store 200 (some "dev")).items = [] ∧
    0 < (c10Store.media_uploads.filter
      (fun p => decide (getField p.2 "device_id" = some (.vstr "dev"))
        && !mediaExpired p.2 200)).length := by
  constructor
  · decide
  · decide

-- ### Lemmas for the clear operation (claim C5)

theorem chunkList_le_aux {α : Type} :
    ∀ (n : Nat) (l : List α), l.length ≤ n →
      ∀ c ∈ chunkList l, c.length ≤ CLEAR_BATCH_SIZE := by
  intro n
  induction n with
  | zero =>
      intro l hl c hc
      have : l = [] := List.eq_nil_of_length_eq_zero (Nat.le_zero.1 hl)
      subst this
      rw [chunkList] at hc
      simp at hc
  | succ n ih =>
      intro l hl c hc
      rw [chunkList] at hc
      split at hc
      next => simp at hc
      next h =>
        have hne : l ≠ [] := by simpa [List.isEmpty_iff] using h
        have hpos := List.length_pos.2 hne
        rcases List.mem_cons.1 hc with rfl | hc
        · simp only [List.length_take]
          omega
        · exact ih (l.drop CLEAR_BATCH_SIZE)
            (by simp only [List.length_drop]; simp only [CLEAR_BATCH_SIZE]; omega) c hc

/-- Every delete batch holds at most `CLEAR_BATCH_SIZE` operations. -/
theorem chunkList_le {α : Type} (l : List α) :
    ∀ c ∈ chunkList l, c.length ≤ CLEAR_BATCH_SIZE :=
  chunkList_le_aux l.length l le_rfl

theorem chunkList_sum_aux {α : Type} :
    ∀ (n : Nat) (l : List α), l.length ≤ n →
      ((chunkList l).map List.length).sum = l.length := by
  intro n
  induction n with
  | zero =>
      intro l hl
      have : l = [] := List.eq_nil_of_length_eq_zero (Nat.le_zero.1 hl)
      subst this
      rw [chunkList]
      simp
  | succ n ih =>
      intro l hl
      rw [chunkList]
      split
      next h =>
        simp only [List.isEmpty_iff] at h
        simp [h]
      next h =>
        have hne : l ≠ [] := by simpa [List.isEmpty_iff] using h
        have hpos := List.length_pos.2 hne
        rw [List.map_cons, List.sum_cons,
          ih (l.drop CLEAR_BATCH_SIZE)
            (by simp only [List.length_drop]; simp only [CLEAR_BATCH_SIZE]; omega)]
        simp only [List.length_take, List.length_drop]
        omega

/-- Summed across the chunks, every selected document is counted once. -/
theorem chunkList_sum {α : Type} (l : List α) :
    ((chunkList l).map List.length).sum = l.length :=
  chunkList_sum_aux l.length l le_rfl

theorem clear_fold_aux (username : String) :
    ∀ (n : Nat) (docs : List (String × Doc)), docs.length ≤ n → ∀ (t : Nat) (s : Store),
      (chunkList docs).foldl
        (fun acc chunk =>
          (acc.1 + chunk.length,
           { acc.2 with user_notifications :=
               (deleteDocs username chunk acc.2.user_notifications) }))
        (t, s) =
      (t + docs.length,
       { s with user_notifications :=
           (deleteDocs username docs s.user_notifications) }) := by
  intro n
  induction n with
  | zero =>
      intro docs hl t s
      have : docs = [] := List.eq_nil_of_length_eq_zero (Nat.le_zero.1 hl)
      subst this
      rw [chunkList]
      simp [deleteDocs]
  | succ n ih =>
      intro docs hl t s
      rw [chunkList]
      split
      next h =>
        simp only [List.isEmpty_iff] at h
        subst h
        simp [deleteDocs]
      next h =>
        have hne : docs ≠ [] := by simpa [List.isEmpty_iff] using h
        have hpos := List.length_pos.2 hne
        rw [List.foldl_cons,
          ih (docs.drop CLEAR_BATCH_SIZE)
            (by simp only [List.length_drop]; simp only [CLEAR_BATCH_SIZE]; omega)]
        have hdel : deleteDocs username (docs.drop CLEAR_BATCH_SIZE)
            (deleteDocs username (docs.take CLEAR_BATCH_SIZE) s.user_notifications) =
            deleteDocs username docs s.user_notifications := by
          simp only [deleteDocs]
          rw [← List.foldl_append, List.take_append_drop]
        have hlen : (docs.take CLEAR_BATCH_SIZE).length +
            (docs.drop CLEAR_BATCH_SIZE).length = docs.length := by
          simp only [List.length_take, List.length_drop]
          omega
        simp only [Prod.mk.injEq]
        constructor
        · omega
        · rw [hdel]

/-- The chunked delete loop of `api_notifications_clear` deletes all selected
documents and counts every one of them, independently of the chunking. -/
theorem clear_fold (username : String) (docs : List (String × Doc)) (t : Nat)
    (s : Store) :
    (chunkList docs).foldl
      (fun acc chunk =>
        (acc.1 + chunk.length,
         { acc.2 with user_notifications :=
             (deleteDocs username chunk acc.2.user_notifications) }))
      (t, s) =
    (t + docs.length,
     { s with user_notifications :=
         (deleteDocs username docs s.user_notifications) }) :=
  clear_fold_aux username docs.length docs le_rfl t s

/-- Deleting a list of documents of one user is a filter on the collection. -/
theorem deleteDocs_eq_filter (username : String) (docs : List (String × Doc))
    (coll : List ((String × String) × Doc)) :
    deleteDocs username docs coll =
      coll.filter (fun x =>
        !(decide (x.1.1 = username) && docs.any (fun p => decide (p.1 = x.1.2)))) := by
  induction docs generalizing coll with
  | nil => simp [deleteDocs]
  | cons p ps ih =>
      show deleteDocs username ps (deleteK coll (username, p.1)) = _
      rw [ih, deleteK, List.filter_filter]
      apply List.filter_congr
      intro x hx
      by_cases h1 : x.1.1 = username
      · by_cases h2 : p.1 = x.1.2
        · have e1 : decide (x.1 ≠ (username, p.1)) = false := by
            have hxk : x.1 = (username, p.1) := by
              rw [Prod.ext_iff]
              exact ⟨h1, h2.symm⟩
            simp [hxk]
          have e3 : decide (p.1 = x.1.2) = true := by simp [h2]
          simp [e1, e3, h1]
        · have e1 : decide (x.1 ≠ (username, p.1)) = true := by
            have hxk : x.1 ≠ (username, p.1) := fun hk =>
              h2 (congrArg Prod.snd hk).symm
            simp [hxk]
          have e3 : decide (p.1 = x.1.2) = false := by simp [h2]
          simp [e1, e3, h1]
      · have e1 : decide (x.1 ≠ (username, p.1)) = true := by
          have hxk : x.1 ≠ (username, p.1) := fun hk =>
            h1 (congrArg Prod.fst hk)
          simp [hxk]
        simp [e1, h1]

/-- Membership in the per-user view of the inbox collection. -/
theorem mem_userNotifs (coll : List ((String × String) × Doc)) (u eid : String)
    (d : Doc) : (eid, d) ∈ userNotifs coll u ↔ ((u, eid), d) ∈ coll := by
  simp only [userNotifs, List.mem_filterMap]
  constructor
  · rintro ⟨⟨⟨a, b⟩, c⟩, hx, hif⟩
    by_cases hau : a = u
    · simp only [hau, if_pos rfl, Option.some.injEq, Prod.mk.injEq] at hif
      rcases hif with ⟨rfl, rfl⟩
      rw [← hau]
      exact hx
    · simp [hau] at hif
  · intro hm
    exact ⟨((u, eid), d), hm, by simp⟩

/-- Under unique document keys, deleting the ids of the read entries of a user
is the same as deleting the read entries of that user. -/
theorem clear_read_filter (coll : List ((String × String) × Doc))
    (username : String) (hnd : (coll.map (fun x => x.1)).Nodup) :
    coll.filter (fun x =>
      !(decide (x.1.1 = username) &&
        ((userNotifs coll username).filter (fun p => docRead p.2)).any
          (fun p => decide (p.1 = x.1.2)))) =
    coll.filter (fun x => !(decide (x.1.1 = username) && docRead x.2)) := by
  apply List.filter_congr
  intro x hx
  by_cases h1 : x.1.1 = username
  · have hx' : ((username, x.1.2), x.2) ∈ coll := by
      rw [← h1]
      exact hx
    have hany : (((userNotifs coll username).filter (fun p => docRead p.2)).any
        (fun p => decide (p.1 = x.1.2))) = docRead x.2 := by
      cases hdr : docRead x.2 with
      | true =>
          apply List.any_eq_true.2
          exact ⟨(x.1.2, x.2),
            List.mem_filter.2 ⟨(mem_userNotifs coll username x.1.2 x.2).2 hx', hdr⟩,
            by simp⟩
      | false =>
          apply List.any_eq_false.2
          rintro ⟨b', c'⟩ hp hb
          simp only [decide_eq_true_eq] at hb
          rcases List.mem_filter.1 hp with ⟨hmem, hread⟩
          have hin : ((username, b'), c') ∈ coll :=
            (mem_userNotifs coll username b' c').1 hmem
          rw [hb] at hin
          have heq : ((username, x.1.2), c') = ((username, x.1.2), x.2) :=
            List.inj_on_of_nodup_map hnd hin hx' rfl
          have hc : c' = x.2 := congrArg Prod.snd heq
          rw [hc] at hread
          rw [hdr] at hread
          exact Bool.false_ne_true hread
    rw [hany]
  · simp [h1]

/-- In mode `all`, deleting all selected ids of a user deletes exactly the
entries of that user. -/
theorem clear_all_filter (coll : List ((String × String) × Doc))
    (username : String) :
    coll.filter (fun x =>
      !(decide (x.1.1 = username) &&
        (userNotifs coll username).any (fun p => decide (p.1 = x.1.2)))) =
    coll.filter (fun x => !decide (x.1.1 = username)) := by
  apply List.filter_congr
  intro x hx
  by_cases h1 : x.1.1 = username
  · have hx' : ((username, x.1.2), x.2) ∈ coll := by
      rw [← h1]
      exact hx
    have hany : ((userNotifs coll username).any (fun p => decide (p.1 = x.1.2))) = true :=
      List.any_eq_true.2
        ⟨(x.1.2, x.2), (mem_userNotifs coll username x.1.2 x.2).2 hx', by simp⟩
    simp [h1, hany]
  · simp [h1]

-- ### Claim C5

/-- C5: `api_notifications_clear` for an authenticated recipient.  With no mode
given the default is `read`.  Mode `read` deletes exactly the entries with
`read=true` of that user (unread entries and other collections untouched) and
reports their number; mode `all` deletes every entry of the user; an invalid
mode is rejected with a validation error and no write; an empty selection
yields `cleared_count = 0` without error; and the deletion batches are chunks
of at most 450 operations whose lengths sum to the reported count. -/
theorem clear_modes (st : Store) (username : String) (modeInput : Option String)
    (hnd : (st.user_notifications.map (fun x => x.1)).Nodup) :
    (apiNotificationsClear st username none =
      apiNotificationsClear st username (some "read")) ∧
    (normalizeMode modeInput ≠ "all" → normalizeMode modeInput ≠ "read" →
      apiNotificationsClear st username modeInput = (.badMode, st)) ∧
    (normalizeMode modeInput = "read" →
      (apiNotificationsClear st username modeInput).2 =
        { st with user_notifications :=
            (st.user_notifications.filter
              (fun x => !(decide (x.1.1 = username) && docRead x.2))) } ∧
      (apiNotificationsClear st username modeInput).1.count =
        some ((userNotifs st.user_notifications username).filter
          (fun p => docRead p.2)).length) ∧
    (normalizeMode modeInput = "all" →
      (apiNotificationsClear st username modeInput).2 =
        { st with user_notifications :=
            (st.user_notifications.filter (fun x => !decide (x.1.1 = username))) } ∧
      (apiNotificationsClear st username modeInput).1.count =
        some (userNotifs st.user_notifications username).length) ∧
    (normalizeMode modeInput = "read" →
      (userNotifs st.user_notifications username).filter (fun p => docRead p.2) = [] →
      apiNotificationsClear st username modeInput =
        (.cleared "Nothing to clear" 0 "read", st)) ∧
    (∀ l : List (String × Doc),
      (∀ c ∈ chunkList l, c.length ≤ CLEAR_BATCH_SIZE) ∧
      ((chunkList l).map List.length).sum = l.length) := by
  refine ⟨rfl, ?_, ?_, ?_, ?_, fun l => ⟨chunkList_le l, chunkList_sum l⟩⟩
  · intro h1 h2
    simp only [apiNotificationsClear]
    rw [if_neg (by rintro (h | h); exacts [h1 h, h2 h])]
  · intro hm
    simp only [apiNotificationsClear, hm, true_or, or_true, false_or, or_false,
      if_true, if_false]
    by_cases hdocs :
        ((userNotifs st.user_notifications username).filter
          (fun p => docRead p.2)).isEmpty
    · rw [if_pos hdocs]
      have hdocs' := List.isEmpty_iff.1 hdocs
      constructor
      · show st = _
        have hself : st.user_notifications.filter
            (fun x => !(decide (x.1.1 = username) && docRead x.2)) =
            st.user_notifications := by
          rw [List.filter_eq_self]
          intro x hxm
          by_cases h1 : x.1.1 = username
          · cases hdr : docRead x.2 with
            | true =>
                exfalso
                have hx' : ((username, x.1.2), x.2) ∈ st.user_notifications := by
                  rw [← h1]
                  exact hxm
                have hmem : (x.1.2, x.2) ∈
                    (userNotifs st.user_notifications username).filter
                      (fun p => docRead p.2) :=
                  List.mem_filter.2
                    ⟨(mem_userNotifs st.user_notifications username x.1.2 x.2).2 hx', hdr⟩
                rw [hdocs'] at hmem
                simp at hmem
            | false => simp [h1, hdr]
          · simp [h1]
        rw [hself]
      · simp [ClearResult.count, hdocs']
    · rw [if_neg hdocs]
      rw [clear_fold username
        ((userNotifs st.user_notifications username).filter (fun p => docRead p.2)) 0 st]
      constructor
      · show ({ st with user_notifications := _ } : Store) = _
        rw [deleteDocs_eq_filter, clear_read_filter st.user_notifications username hnd]
      · simp [ClearResult.count]
  · intro hm
    simp only [apiNotificationsClear, hm, true_or, or_true, false_or, or_false,
      if_true, if_false]
    rw [if_neg (show ¬("all" : String) = "read" by decide)]
    by_cases hdocs : (userNotifs st.user_notifications username).isEmpty
    · rw [if_pos hdocs]
      have hdocs' := List.isEmpty_iff.1 hdocs
      constructor
      · show st = _
        have hself : st.user_notifications.filter
            (fun x => !decide (x.1.1 = username)) = st.user_notifications := by
          rw [List.filter_eq_self]
          intro x hxm
          by_cases h1 : x.1.1 = username
          · exfalso
            have hx' : ((username, x.1.2), x.2) ∈ st.user_notifications := by
              rw [← h1]
              exact hxm
            have hmem : (x.1.2, x.2) ∈ userNotifs st.user_notifications username :=
              (mem_userNotifs st.user_notifications username x.1.2 x.2).2 hx'
            rw [hdocs'] at hmem
            simp at hmem
          · simp [h1]
        rw [hself]
      · simp [ClearResult.count, hdocs']
    · rw [if_neg hdocs]
      rw [clear_fold username (userNotifs st.user_notifications username) 0 st]
      constructor
      · show ({ st with user_notifications := _ } : Store) = _
        rw [deleteDocs_eq_filter, clear_all_filter st.user_notifications username]
      · simp [ClearResult.count]
  · intro hm hread
    simp only [apiNotificationsClear, hm, true_or, or_true, false_or, or_false,
      if_true, if_false]
    rw [hread]
    rfl

/-- A store for the clear witness: user `u` has one read and one unread entry
(with `created_at` fields), user `v` has one read entry. -/
def c5Store : Store :=
  { notification_events := [], media_uploads := [],
    user_notifications :=
      [(("u", "a"), [("read", .vbool true), ("read_at", .vtime 5),
          ("created_at", .vtime 10)]),
       (("u", "b"), [("read", .vbool false), ("read_at", .vnull),
          ("created_at", .vtime 20)]),
       (("v", "c"), [("read", .vbool true), ("read_at", .vtime 6),
          ("created_at", .vtime 30)])] }

theorem clear_modes_witness :
    (apiNotificationsClear c5Store "u" (some "read")).2 =
      { c5Store with user_notifications :=
          (c5Store.user_notifications.filter
            (fun x => !(decide (x.1.1 = "u") && docRead x.2))) } ∧
    (apiNotificationsClear c5Store "u" (some "read")).1.count = some 1 ∧
    (apiNotificationsClear c5Store "u" (some "bogus")) = (.badMode, c5Store) := by
  have h := clear_modes c5Store "u" (some "read") (by decide)
  have h' := clear_modes c5Store "u" (some "bogus") (by decide)
  refine ⟨(h.2.2.1 (by decide)).1, ?_, h'.2.1 (by decide) (by decide)⟩
  have hc := (h.2.2.1 (by decide)).2
  rw [hc]
  decide

-- ### Claim C4

/-- C4: a publish with a non-empty filtered recipient list returns
`status="ok"` with the generated event id and the recipient count, and that
same event id is the document key of the event-log record and of the inbox
entry of every recipient, each record carrying the id verbatim in its
`event_id` field.  The id is the single `uuid4` value generated by this call,
threaded unchanged to every channel. -/
theorem publish_event_id_join_key (clock : Clock) (event_id : String)
    (args : PublishArgs) (st : Store)
    (h : args.recipients.filter (fun r => !r.isEmpty) ≠ []) :
    (publish appChannels clock event_id args st).1.status = "ok" ∧
    (publish appChannels clock event_id args st).1.event_id = some event_id ∧
    (publish appChannels clock event_id args st).1.recipient_count =
      some (args.recipients.filter (fun r => !r.isEmpty)).length ∧
    (∃ d, lookupK (publish appChannels clock event_id args st).2.notification_events
        event_id = some d ∧ getField d "event_id" = some (.vstr event_id)) ∧
    ∀ u ∈ args.recipients.filter (fun r => !r.isEmpty),
      ∃ d, lookupK (publish appChannels clock event_id args st).2.user_notifications
          (u, event_id) = some d ∧ getField d "event_id" = some (.vstr event_id) := by
  rw [publish_appChannels clock event_id args st h]
  refine ⟨rfl, rfl, rfl, ?_, ?_⟩
  · exact ⟨_, lookupK_setK_self _ _ _,
      getField_eventLogDoc_event_id clock clock event_id args _⟩
  · intro u hu
    rcases inboxWrites_mem clock clock event_id args _ st.user_notifications u hu
      with ⟨d, hd, h1, _, _⟩
    exact ⟨d, hd, h1⟩

theorem publish_event_id_join_key_witness :
    (publish appChannels ⟨3, "t3"⟩ "evt-w4"
        { recipients := ["alice", "", "bob"], notif_type := "t", title := "T",
          body := "B" } ⟨[], [], []⟩).1.event_id = some "evt-w4" ∧
    (∃ d, lookupK (publish appChannels ⟨3, "t3"⟩ "evt-w4"
        { recipients := ["alice", "", "bob"], notif_type := "t", title := "T",
          body := "B" } ⟨[], [], []⟩).2.user_notifications ("bob", "evt-w4") =
        some d ∧ getField d "event_id" = some (.vstr "evt-w4")) := by
  have h := publish_event_id_join_key ⟨3, "t3"⟩ "evt-w4"
    { recipients := ["alice", "", "bob"], notif_type := "t", title := "T",
      body := "B" } ⟨[], [], []⟩ (by decide)
  exact ⟨h.2.1, h.2.2.2.2 "bob" (by decide)⟩

-- ### Claim C9

/-- The stores-only postcondition of a severity claim: every inbox entry and
event-log record either was already present unchanged, or carries a severity
drawn from the enum. -/
def severityOk (st' st : Store) : Prop :=
  (∀ key : String × String,
     lookupK st'.user_notifications key = lookupK st.user_notifications key ∨
     ∃ d s, lookupK st'.user_notifications key = some d ∧
       getField d "severity" = some (.vstr s) ∧ s ∈ VALID_SEVERITIES) ∧
  (∀ k : String,
     lookupK st'.notification_events k = lookupK st.notification_events k ∨
     ∃ d s, lookupK st'.notification_events k = some d ∧
       getField d "severity" = some (.vstr s) ∧ s ∈ VALID_SEVERITIES)

theorem severityOk_refl (st : Store) : severityOk st st :=
  ⟨fun _ => Or.inl rfl, fun _ => Or.inl rfl⟩

/-- A publish through the configured channels with an enum severity only ever
persists documents whose `severity` is in the enum. -/
theorem publish_severityOk (clock : Clock) (event_id : String)
    (args : PublishArgs) (st : Store) (hs : args.severity ∈ VALID_SEVERITIES) :
    severityOk (publish appChannels clock event_id args st).2 st := by
  by_cases h : args.recipients.filter (fun r => !r.isEmpty) = []
  · have he : (args.recipients.filter (fun r => !r.isEmpty)).isEmpty = true := by
      simp [List.isEmpty_iff, h]
    have hskip : (publish appChannels clock event_id args st).2 = st := by
      simp [publish, he]
    rw [hskip]
    exact severityOk_refl st
  · rw [publish_appChannels clock event_id args st h]
    constructor
    · intro key
      by_cases hk : key.1 ∈ args.recipients.filter (fun r => !r.isEmpty) ∧
          key.2 = event_id
      · right
        have hkey : key = (key.1, event_id) := by
          rw [Prod.ext_iff]
          exact ⟨rfl, hk.2⟩
        rw [hkey]
        rcases inboxWrites_mem clock clock event_id args _ st.user_notifications
          key.1 hk.1 with ⟨d, hd, _, h2, _⟩
        exact ⟨d, args.severity, hd, h2, hs⟩
      · left
        rcases not_and_or.1 hk with hk1 | hk2
        · exact inboxWrites_frame clock _ event_id _ _ key (Or.inl hk1)
        · exact inboxWrites_frame clock _ event_id _ _ key (Or.inr hk2)
    · intro k
      by_cases hk : k = event_id
      · right
        subst hk
        exact ⟨_, args.severity, lookupK_setK_self _ _ _,
          getField_eventLogDoc_severity clock clock k args _, hs⟩
      · left
        exact lookupK_setK_ne _ _ _ _ hk

/-- Every preset of the demo route carries an enum severity. -/
theorem demoPresets_severity (device p : String) (pr : DemoPreset)
    (h : lookupK (demoPresets device) p = some pr) :
    pr.severity ∈ VALID_SEVERITIES := by
  simp only [demoPresets, lookupK] at h
  split_ifs at h <;>
    first
      | (simp only [Option.some.injEq] at h; subst h;
         first
           | (show ("success" : String) ∈ VALID_SEVERITIES; decide)
           | (show ("warning" : String) ∈ VALID_SEVERITIES; decide)
           | (show ("error" : String) ∈ VALID_SEVERITIES; decide)
           | (show ("info" : String) ∈ VALID_SEVERITIES; decide))
      | exact absurd h (by simp)

/-- C9: every notification payload the program constructs carries a severity
from the enum `info | warning | error | success`, and every document persisted
by any of the three publish call sites (device command, image upload, demo
notify) carries such a severity: `publish` propagates the severity argument
verbatim and each call site supplies an enum member. -/
theorem program_severity_in_enum (clock : Clock) (event_id : String) (st : Store)
    (username device_id cmd original_name upload_id : String)
    (presetParam : Option String) :
    (∀ args : PublishArgs,
      getField (mkPayload clock event_id args) "severity" =
        some (.vstr args.severity)) ∧
    (∀ (device p : String) (pr : DemoPreset),
      lookupK (demoPresets device) p = some pr →
        pr.severity ∈ VALID_SEVERITIES) ∧
    severityOk (apiDeviceCommandNotify clock event_id username device_id cmd st).2 st ∧
    severityOk (apiUploadImageNotify clock event_id username device_id
      original_name upload_id st).2 st ∧
    severityOk (apiDeviceDemoNotify clock event_id username device_id
      presetParam st).2 st := by
  refine ⟨fun args => rfl, fun device p pr h => demoPresets_severity device p pr h,
    ?_, ?_, ?_⟩
  · exact publish_severityOk clock event_id _ st
      (by show ("info" : String) ∈ VALID_SEVERITIES; decide)
  · exact publish_severityOk clock event_id _ st
      (by show ("info" : String) ∈ VALID_SEVERITIES; decide)
  · rcases hl : lookupK (demoPresets device_id)
        (pyStrip (match presetParam with
          | none => "package_detected"
          | some s => if s.isEmpty then "package_detected" else s)) with _ | pr
    · have : (apiDeviceDemoNotify clock event_id username device_id
          presetParam st).2 = st := by
        simp [apiDeviceDemoNotify, hl]
      rw [this]
      exact severityOk_refl st
    · have : (apiDeviceDemoNotify clock event_id username device_id
          presetParam st).2 =
          (publishDeviceNotification clock event_id username device_id
            pr.notif_type pr.title pr.body pr.severity (some pr.data) st).2 := by
        simp [apiDeviceDemoNotify, hl]
      rw [this]
      exact publish_severityOk clock event_id _ st
        (demoPresets_severity _ _ _ hl)

theorem program_severity_in_enum_witness :
    DemoPreset.severity
      { notif_type := "door_alert", title := "Door left open",
        body := "Device demo123 door appears to be open.",
        severity := "warning",
        data := [("source", "demo"), ("event", "door_left_open")] } ∈
      VALID_SEVERITIES :=
  (program_severity_in_enum ⟨0, "t0"⟩ "evt-w9" ⟨[], [], []⟩ "student" "demo123"
    "open" "a.jpg" "up1" (some "door_left_open")).2.1 "demo123" "door_left_open"
    _ (by decide)

end SmartPost
